import Mathlib

/- Batteries marks the rational-number operations `@[irreducible]`; the
kernel ignores reducibility, but the `decide` front end respects it, so the
concrete-input evaluations below need them semireducible again. -/
attribute [local semireducible] Rat.add Rat.mul Rat.inv Rat.sub Rat.ofScientific

/-!
Verification development for the divergence-based signal scoring engine of
`src/app/ml/addivergencescoring.py` (class `AdDivergenceScoring`).

The engine is embedded shallowly:

* a pandas row becomes a `Bar` (date modelled as an integer day number, the
  price/volume fields as rationals — the Python floats carry exact decimal
  values through the computations the claims are about, and every comparison
  the code performs is order-theoretic);
* derived columns (`EMA50`, `EMA200`, `RSI`, `AD`) become lists computed by
  the functions below, collected in a `Frame`;
* `NaN` cells are modelled by `Option ℚ` where they are load-bearing (the
  `RSI` column, whose warm-up prefix is NaN and whose comparisons against
  thresholds are `False` on NaN in Python); columns that are NaN-free on
  contract-conforming input stay in `ℚ`;
* the uncaught `IndexError` that `df["close"].iloc[-1]` raises on an empty
  frame is modelled by `score` returning `none`.
-/

/-- One OHLCV row of the input frame. `date` is the `DatetimeIndex` label as
a day number (the code only ever subtracts two dates and takes `.days`).
The `open` column is never read by the scoring code and is omitted. -/
structure Bar where
  date : ℤ
  high : ℚ
  low : ℚ
  close : ℚ
  volume : ℚ
deriving Repr, DecidableEq

/-- Tail of `Series.ewm(span, adjust=False).mean()`: each output is
`(1 - a) * previous + a * current`. -/
def ewmaFrom (a : ℚ) (prev : ℚ) : List ℚ → List ℚ
  | [] => []
  | c :: cs =>
    let e := (1 - a) * prev + a * c
    e :: ewmaFrom a e cs

/-- `Series.ewm(span, adjust=False).mean()`: seeded by the first observed
value, then the recursive exponentially weighted mean.  The smoothing factor
for `span` is `a = 2 / (span + 1)`. -/
def ewma (a : ℚ) : List ℚ → List ℚ
  | [] => []
  | c :: cs => c :: ewmaFrom a c cs

/-- Close-to-close difference `df["close"].diff()` at position `k`; only
meaningful for `1 ≤ k < closes.length` (position 0 is NaN in pandas, and all
uses below are guarded accordingly). -/
def delta (closes : List ℚ) (k : ℕ) : ℚ :=
  closes.getD k 0 - closes.getD (k - 1) 0

/-- `up.rolling(window=14).mean()` at position `i`, where
`up = delta.clip(lower=0)`: the mean of `max(delta, 0)` over the window of
positions `i, i-1, ..., i-13`.  Only used under the guard `14 ≤ i`, which is
exactly where the pandas value is non-NaN (NaN of `diff` at 0 poisons every
earlier window). -/
def avgGain (closes : List ℚ) (i : ℕ) : ℚ :=
  (((List.range 14).map fun j => max (delta closes (i - j)) 0).sum) / 14

/-- `down.rolling(window=14).mean()` at position `i`, where
`down = -delta.clip(upper=0)`, i.e. the mean of `max(-delta, 0)` over the
same window. -/
def avgLoss (closes : List ℚ) (i : ℕ) : ℚ :=
  (((List.range 14).map fun j => max (-(delta closes (i - j))) 0).sum) / 14

/-- The `RSI` cell at position `i`, from
`rs = avg_gain / avg_loss; RSI = 100 - 100 / (1 + rs)` in IEEE-float
semantics: `none` models NaN.  For `i < 14` the rolling windows contain the
NaN of `diff` at position 0 (or are incomplete), so the cell is NaN.  Past
warm-up: `avg_loss = 0` with `avg_gain = 0` is `0/0 = NaN`, which propagates
to NaN; `avg_loss = 0` with `avg_gain > 0` is `+inf`, and
`100 - 100/(1 + inf) = 100`; otherwise the arithmetic is exact and
`1 + rs ≥ 1 > 0`, so the rational formula coincides with the float formula's
value. -/
def rsiAt (closes : List ℚ) (i : ℕ) : Option ℚ :=
  if 14 ≤ i ∧ i < closes.length then
    if avgLoss closes i = 0 then
      if avgGain closes i = 0 then none else some 100
    else some (100 - 100 / (1 + avgGain closes i / avgLoss closes i))
  else none

/-- The `RSI` column. -/
def rsiList (closes : List ℚ) : List (Option ℚ) :=
  (List.range closes.length).map (rsiAt closes)

/-- Money-flow multiplier of one bar:
`((close - low) - (high - close)) / (high - low)`, with the subsequent
`mfv.fillna(0)` of the source folded in: in `ℚ`, division by zero yields 0,
which is exactly the `0/0 = NaN → fillna(0)` path taken when `high = low`
on a contract-conforming bar (`low ≤ close ≤ high` forces the numerator to
0 as well).  A malformed bar with `high = low` but `close ≠ high` would be
`±inf` in float; such bars violate the Series contract and are outside the
data model. -/
def mfv (b : Bar) : ℚ :=
  ((b.close - b.low) - (b.high - b.close)) / (b.high - b.low)

/-- Running cumulative sum with accumulator, for `Series.cumsum()`. -/
def cumsumFrom (acc : ℚ) : List ℚ → List ℚ
  | [] => []
  | x :: xs => (acc + x) :: cumsumFrom (acc + x) xs

/-- `Series.cumsum()`. -/
def cumsum (l : List ℚ) : List ℚ :=
  cumsumFrom 0 l

/-- The data frame after the indicator block of `score` (lines 24-36 of the
source): the raw columns the later stages read, plus the derived columns. -/
structure Frame where
  dates : List ℤ
  lows : List ℚ
  closes : List ℚ
  ema50 : List ℚ
  ema200 : List ℚ
  rsi : List (Option ℚ)
  ad : List ℚ
deriving Repr

/-- Indicator builder (lines 24-36 of `score`):
`EMA50 = close.ewm(span=50, adjust=False).mean()`,
`EMA200 = close.ewm(span=200, adjust=False).mean()`, the 14-bar RSI, and
`AD = (mfv * volume).cumsum()`. -/
def buildFrame (bars : List Bar) : Frame :=
  let closes := bars.map Bar.close
  { dates := bars.map Bar.date
    lows := bars.map Bar.low
    closes := closes
    ema50 := ewma (2 / 51) closes
    ema200 := ewma (2 / 201) closes
    rsi := rsiList closes
    ad := cumsum (bars.map fun b => mfv b * b.volume) }

/-- `np.take(xs, i, mode=clip)`: fetch with the index clipped into
`[0, length - 1]`.  This is the index arithmetic of
`scipy.signal.argrelextrema`'s default `mode='clip'`. -/
def idxClip (xs : List ℚ) (i : ℤ) : ℚ :=
  xs.getD (Int.toNat (max 0 (min i ((xs.length : ℤ) - 1)))) 0

/-- Position `i` is a relative minimum in the sense of
`argrelextrema(xs, np.less, order=order)` (default `mode='clip'`):
`xs[i] < xs[clip(i + s)]` and `xs[i] < xs[clip(i - s)]` for every shift
`s = 1, ..., order`.  Out-of-range neighbour offsets are clipped to the
boundary element rather than excluded. -/
def isPivot (xs : List ℚ) (order : ℕ) (i : ℕ) : Bool :=
  (List.range order).all fun s =>
    decide (idxClip xs i < idxClip xs ((i : ℤ) + ((s : ℤ) + 1))) &&
    decide (idxClip xs i < idxClip xs ((i : ℤ) - ((s : ℤ) + 1)))

/-- `argrelextrema(xs, np.less, order=order)[0]`: the ascending list of
relative-minimum positions. -/
def pivotIdxs (xs : List ℚ) (order : ℕ) : List ℕ :=
  (List.range xs.length).filter fun i => isPivot xs order i

/-- Position of the earlier of the two latest price pivots
(`price_lows.iloc[-2]`, line 71).  Under the Series contract (unique dates)
the rows of `price_lows` are exactly the pivot rows, in frame order. -/
def p1Index (f : Frame) (order : ℕ) : ℕ :=
  (pivotIdxs f.lows order).getD ((pivotIdxs f.lows order).length - 2) 0

/-- Position of the latest price pivot (`price_lows.iloc[-1]`, line 71). -/
def p2Index (f : Frame) (order : ℕ) : ℕ :=
  (pivotIdxs f.lows order).getD ((pivotIdxs f.lows order).length - 1) 0

/-- `ad_candidates` (lines 78-80): AD pivot rows whose date is within
`max_dist` calendar days of the latest price pivot's date
(`abs((ad_lows.index - p2.name).days) <= max_dist`). -/
def adCands (f : Frame) (order : ℕ) (maxDist : ℤ) : List ℕ :=
  (pivotIdxs f.ad order).filter fun j =>
    |f.dates.getD j 0 - f.dates.getD (p2Index f order) 0| ≤ maxDist

/-- Position of the earlier of the two latest qualifying AD pivots
(`ad_candidates.iloc[-2]`, line 85). -/
def a1Index (f : Frame) (order : ℕ) (maxDist : ℤ) : ℕ :=
  (adCands f order maxDist).getD ((adCands f order maxDist).length - 2) 0

/-- Position of the latest qualifying AD pivot (`ad_candidates.iloc[-1]`). -/
def a2Index (f : Frame) (order : ℕ) (maxDist : ℤ) : ℕ :=
  (adCands f order maxDist).getD ((adCands f order maxDist).length - 1) 0

/-- `df.index.get_loc(d)` for a unique index: the first position whose date
equals `d`.  (With duplicate dates pandas returns a slice or mask and the
subsequent integer arithmetic of line 94 raises; the Series contract rules
duplicates out, and the theorems that depend on this carry a `Nodup`
hypothesis.) -/
def getLoc (dates : List ℤ) (d : ℤ) : ℕ :=
  dates.findIdx fun a => decide (a = d)

/-- `idx = self.df.index.get_loc(p2.name)` (line 91). -/
def confirmIndex (f : Frame) (order : ℕ) : ℕ :=
  getLoc f.dates (f.dates.getD (p2Index f order) 0)

/-- Python `float < c` where the float may be NaN: NaN compares `False`. -/
def oLt (x : Option ℚ) (c : ℚ) : Bool :=
  match x with
  | none => false
  | some r => decide (r < c)

/-- Python `float > c` where the float may be NaN: NaN compares `False`. -/
def oGt (x : Option ℚ) (c : ℚ) : Bool :=
  match x with
  | none => false
  | some r => decide (r > c)

/-- `Series.iloc[k]` for a possibly negative integer position: a negative
`k` counts from the end (`iloc[-1]` is the last cell).  The only call sites
are `RSI.iloc[idx-1]` and `RSI.iloc[idx]` with `0 ≤ idx < length`, so the
positions are always in bounds and the `getD` default is never produced. -/
def pyGetO (l : List (Option ℚ)) (k : ℤ) : Option ℚ :=
  l.getD (if k < 0 then ((l.length : ℤ) + k).toNat else k.toNat) none

/-- RSI confirmation (line 94): the value one bar before the pivot is
strictly below 40 and the value at the pivot strictly above 40.  A NaN on
either side fails the check. -/
def rsiConfirm (f : Frame) (idx : ℕ) : Bool :=
  oLt (pyGetO f.rsi ((idx : ℤ) - 1)) 40 && oGt (pyGetO f.rsi (idx : ℤ)) 40

/-- `detect_ad_bullish_divergence(order=5, max_dist=6)` (lines 55-97),
as the chain of early-return gates of the source:
fewer than two pivots on either side, a non-strictly-lower price low, fewer
than two date-qualifying AD candidates, or a non-strictly-higher AD low each
return `False`; otherwise the result is the RSI confirmation at the latest
price pivot's position. -/
def detect_ad_bullish_divergence (f : Frame) (order : ℕ) (maxDist : ℤ) : Bool :=
  if (pivotIdxs f.lows order).length < 2 ∨ (pivotIdxs f.ad order).length < 2 then false
  else if f.lows.getD (p2Index f order) 0 ≥ f.lows.getD (p1Index f order) 0 then false
  else if (adCands f order maxDist).length < 2 then false
  else if f.ad.getD (a2Index f order maxDist) 0 ≤ f.ad.getD (a1Index f order maxDist) 0 then false
  else rsiConfirm f (confirmIndex f order)

/-- `Series.iloc[-1]` on a rational column (nonempty at every call site). -/
def lastD (l : List ℚ) : ℚ :=
  l.getD (l.length - 1) 0

/-- `Series.iloc[-1]` on the RSI column. -/
def lastO (l : List (Option ℚ)) : Option ℚ :=
  l.getD (l.length - 1) none

/-- The +40 gate (line 44): the divergence detector on the built frame with
the default arguments `order=5, max_dist=6`. -/
def gateDiv (bars : List Bar) : Bool :=
  detect_ad_bullish_divergence (buildFrame bars) 5 6

/-- The +30 gate (line 46): the chained comparison
`close.iloc[-1] > EMA50.iloc[-1] > EMA200.iloc[-1]`. -/
def gateTrend (bars : List Bar) : Bool :=
  decide (lastD (buildFrame bars).closes > lastD (buildFrame bars).ema50) &&
  decide (lastD (buildFrame bars).ema50 > lastD (buildFrame bars).ema200)

/-- The +10 gate (line 48): `EMA50.iloc[-1] > EMA200.iloc[-1]`. -/
def gateEmaOrder (bars : List Bar) : Bool :=
  decide (lastD (buildFrame bars).ema50 > lastD (buildFrame bars).ema200)

/-- The +20 gate (line 50): the chained comparison
`70 > RSI.iloc[-1] > 30`; `False` when the last RSI cell is NaN. -/
def gateRsiBand (bars : List Bar) : Bool :=
  match lastO (buildFrame bars).rsi with
  | none => false
  | some r => decide (70 > r) && decide (r > 30)

/-- `score(df)` (lines 15-53).  The four `if` statements accumulate into the
sum of four guarded contributions.  On an empty frame the `iloc[-1]` of
line 46 raises an uncaught `IndexError` (the `try` block ends at line 40),
modelled as `none`.  With total rational inputs the indicator block itself
cannot raise, so the `except` branch (print and `return 0`) is unreachable
in the embedding. -/
def score (bars : List Bar) : Option ℤ :=
  if bars.length = 0 then none
  else some
    (cond (gateDiv bars) 40 0 + cond (gateTrend bars) 30 0 +
      cond (gateEmaOrder bars) 10 0 + cond (gateRsiBand bars) 20 0)

/-- The sixteen subset sums of the contribution multiset `{40, 30, 10, 20}`. -/
def subsetSums : List ℤ :=
  [0, 40, 30, 10, 20, 40 + 30, 40 + 10, 40 + 20, 30 + 10, 30 + 20, 10 + 20,
    40 + 30 + 10, 40 + 30 + 20, 40 + 10 + 20, 30 + 10 + 20, 40 + 30 + 10 + 20]

/-- The engine object: its only instance attribute is `self.df`, assigned
from the argument at line 42 before any later stage reads it. -/
structure Engine where
  df : Option Frame

/-- A freshly constructed `AdDivergenceScoring` (`self.df = None`). -/
def initEngine : Engine :=
  ⟨none⟩

/-- One invocation of `score` on an engine: the returned value and the
engine state it leaves behind (`self.df` holds the frame built from the
argument; the incoming state is overwritten at line 42 before any read). -/
def scoreRun (_e : Engine) (bars : List Bar) : Option ℤ × Engine :=
  (score bars, ⟨some (buildFrame bars)⟩)

/-- Score a whole history of series in order, keeping only the engine
state. -/
def runAll (e : Engine) (hist : List (List Bar)) : Engine :=
  hist.foldl (fun e bars => (scoreRun e bars).2) e

/-!
Model for the data-quality claim: the `low` cell of a bar may be missing
(NaN).  The source never checks for this; the NaN flows into the money-flow
multiplier, where `fillna(0)` silently zeroes it, and into the `low` column,
where every NaN comparison of the pivot scan is `False`.  The remaining
columns (`close`-derived) are unchanged, so they reuse the functions above.
-/

/-- A bar whose `low` cell may be missing/NaN. -/
structure BarM where
  date : ℤ
  high : ℚ
  low : Option ℚ
  close : ℚ
  volume : ℚ
deriving Repr, DecidableEq

/-- Money-flow multiplier with a possibly missing `low`: a NaN operand makes
the whole expression NaN, which `mfv.fillna(0)` (line 34) replaces by 0. -/
def mfvM (b : BarM) : ℚ :=
  match b.low with
  | none => 0
  | some l => ((b.close - l) - (b.high - b.close)) / (b.high - l)

/-- `np.less` on possibly-NaN floats: any comparison with NaN is `False`. -/
def oLtM (a b : Option ℚ) : Bool :=
  match a, b with
  | some x, some y => decide (x < y)
  | _, _ => false

/-- `>=` on possibly-NaN floats: any comparison with NaN is `False`. -/
def oGeM (a b : Option ℚ) : Bool :=
  match a, b with
  | some x, some y => decide (x ≥ y)
  | _, _ => false

/-- Clipped fetch on a column with possibly missing cells. -/
def idxClipM (xs : List (Option ℚ)) (i : ℤ) : Option ℚ :=
  xs.getD (Int.toNat (max 0 (min i ((xs.length : ℤ) - 1)))) none

/-- `argrelextrema` comparison at one position over a possibly-NaN column. -/
def isPivotM (xs : List (Option ℚ)) (order : ℕ) (i : ℕ) : Bool :=
  (List.range order).all fun s =>
    oLtM (idxClipM xs i) (idxClipM xs ((i : ℤ) + ((s : ℤ) + 1))) &&
    oLtM (idxClipM xs i) (idxClipM xs ((i : ℤ) - ((s : ℤ) + 1)))

/-- `argrelextrema(xs, np.less, order)[0]` over a possibly-NaN column. -/
def pivotIdxsM (xs : List (Option ℚ)) (order : ℕ) : List ℕ :=
  (List.range xs.length).filter fun i => isPivotM xs order i

/-- The indicator frame when `low` cells may be missing. -/
structure FrameM where
  dates : List ℤ
  lows : List (Option ℚ)
  closes : List ℚ
  ema50 : List ℚ
  ema200 : List ℚ
  rsi : List (Option ℚ)
  ad : List ℚ
deriving Repr

/-- Indicator builder over bars with possibly missing `low` cells. -/
def buildFrameM (bars : List BarM) : FrameM :=
  let closes := bars.map BarM.close
  { dates := bars.map BarM.date
    lows := bars.map BarM.low
    closes := closes
    ema50 := ewma (2 / 51) closes
    ema200 := ewma (2 / 201) closes
    rsi := rsiList closes
    ad := cumsum (bars.map fun b => mfvM b * b.volume) }

/-- `price_lows.iloc[-2]` position in the missing-data model. -/
def p1IndexM (f : FrameM) (order : ℕ) : ℕ :=
  (pivotIdxsM f.lows order).getD ((pivotIdxsM f.lows order).length - 2) 0

/-- `price_lows.iloc[-1]` position in the missing-data model. -/
def p2IndexM (f : FrameM) (order : ℕ) : ℕ :=
  (pivotIdxsM f.lows order).getD ((pivotIdxsM f.lows order).length - 1) 0

/-- `ad_candidates` in the missing-data model. -/
def adCandsM (f : FrameM) (order : ℕ) (maxDist : ℤ) : List ℕ :=
  (pivotIdxsM f.ad order).filter fun j =>
    |f.dates.getD j 0 - f.dates.getD (p2IndexM f order) 0| ≤ maxDist

/-- `ad_candidates.iloc[-2]` position in the missing-data model. -/
def a1IndexM (f : FrameM) (order : ℕ) (maxDist : ℤ) : ℕ :=
  (adCandsM f order maxDist).getD ((adCandsM f order maxDist).length - 2) 0

/-- `ad_candidates.iloc[-1]` position in the missing-data model. -/
def a2IndexM (f : FrameM) (order : ℕ) (maxDist : ℤ) : ℕ :=
  (adCandsM f order maxDist).getD ((adCandsM f order maxDist).length - 1) 0

/-- `idx = df.index.get_loc(p2.name)` in the missing-data model. -/
def confirmIndexM (f : FrameM) (order : ℕ) : ℕ :=
  getLoc f.dates (f.dates.getD (p2IndexM f order) 0)

/-- RSI confirmation in the missing-data model. -/
def rsiConfirmM (f : FrameM) (idx : ℕ) : Bool :=
  oLt (pyGetO f.rsi ((idx : ℤ) - 1)) 40 && oGt (pyGetO f.rsi (idx : ℤ)) 40

/-- `detect_ad_bullish_divergence` when `low` cells may be missing: the same
gate chain, with the price-low comparison of line 74 evaluated in NaN-aware
float semantics. -/
def detectM (f : FrameM) (order : ℕ) (maxDist : ℤ) : Bool :=
  if (pivotIdxsM f.lows order).length < 2 ∨ (pivotIdxsM f.ad order).length < 2 then false
  else if oGeM (f.lows.getD (p2IndexM f order) none) (f.lows.getD (p1IndexM f order) none) then false
  else if (adCandsM f order maxDist).length < 2 then false
  else if f.ad.getD (a2IndexM f order maxDist) 0 ≤ f.ad.getD (a1IndexM f order maxDist) 0 then false
  else rsiConfirmM f (confirmIndexM f order)

/-- The +40 gate in the missing-data model. -/
def gateDivM (bars : List BarM) : Bool :=
  detectM (buildFrameM bars) 5 6

/-- The +30 gate in the missing-data model (close/EMA columns are NaN-free,
so the comparison is the rational one). -/
def gateTrendM (bars : List BarM) : Bool :=
  decide (lastD (buildFrameM bars).closes > lastD (buildFrameM bars).ema50) &&
  decide (lastD (buildFrameM bars).ema50 > lastD (buildFrameM bars).ema200)

/-- The +10 gate in the missing-data model. -/
def gateEmaOrderM (bars : List BarM) : Bool :=
  decide (lastD (buildFrameM bars).ema50 > lastD (buildFrameM bars).ema200)

/-- The +20 gate in the missing-data model. -/
def gateRsiBandM (bars : List BarM) : Bool :=
  match lastO (buildFrameM bars).rsi with
  | none => false
  | some r => decide (70 > r) && decide (r > 30)

/-- `score` when `low` cells may be missing: the indicator block raises no
exception (NaN propagates and is filled), so for a nonempty frame the call
returns the guarded sum exactly as with clean data. -/
def scoreM (bars : List BarM) : Option ℤ :=
  if bars.length = 0 then none
  else some
    (cond (gateDivM bars) 40 0 + cond (gateTrendM bars) 30 0 +
      cond (gateEmaOrderM bars) 10 0 + cond (gateRsiBandM bars) 20 0)

/-!
Concrete inputs used by the witnesses and counterexamples.
-/

/-- A single well-formed bar. -/
def bar1 : Bar :=
  ⟨0, 2, 1, 3 / 2, 10⟩

/-- Three bars with strictly rising closes: the latest close sits above the
fast EMA, which sits above the slow EMA. -/
def barsUp : List Bar :=
  [⟨0, 2, 1 / 2, 1, 1⟩, ⟨1, 3, 1, 2, 1⟩, ⟨2, 4, 2, 3, 1⟩]

/-- Five bars with rising closes: shorter than `2 * order + 1 = 11`. -/
def bars5 : List Bar :=
  [⟨0, 2, 1 / 2, 1, 1⟩, ⟨1, 3, 1, 2, 1⟩, ⟨2, 4, 2, 3, 1⟩,
   ⟨3, 5, 2, 4, 1⟩, ⟨4, 6, 3, 5, 1⟩]

/-- A 22-bar series engineered to make every gate of the divergence detector
pass: price pivots at positions 8 (low 10) and 16 (low 5, a strictly lower
low), AD pivots at positions 10 (value -10) and 16 (value -8, a strictly
higher low, both within 6 days of the pivot date 16), and an RSI that
crosses 40 upward at position 16 (RSI 15 = 0, RSI 16 = 2000/33). -/
def barsC3 : List Bar :=
  [⟨0, 101, 50, 100, 0⟩, ⟨1, 100, 50, 99, 0⟩, ⟨2, 99, 50, 98, 0⟩,
   ⟨3, 98, 50, 97, 0⟩, ⟨4, 97, 50, 96, 0⟩, ⟨5, 96, 50, 95, 0⟩,
   ⟨6, 95, 50, 94, 0⟩, ⟨7, 94, 50, 93, 0⟩, ⟨8, 93, 10, 92, 0⟩,
   ⟨9, 92, 50, 91, 0⟩, ⟨10, 210, 50, 90, 20⟩, ⟨11, 89, 50, 89, 10⟩,
   ⟨12, 89, 50, 88, 0⟩, ⟨13, 88, 50, 87, 0⟩, ⟨14, 87, 50, 86, 0⟩,
   ⟨15, 86, 50, 85, 0⟩, ⟨16, 405, 5, 105, 16⟩, ⟨17, 105, 50, 105, 8⟩,
   ⟨18, 106, 50, 105, 0⟩, ⟨19, 106, 50, 105, 0⟩, ⟨20, 106, 50, 105, 0⟩,
   ⟨21, 106, 50, 105, 0⟩]

/-- The same series with the second price dip raised to 10 (equal lows, a
flat repeat) and the second AD dip lowered to -10 (equal AD lows). -/
def barsC2 : List Bar :=
  [⟨0, 101, 50, 100, 0⟩, ⟨1, 100, 50, 99, 0⟩, ⟨2, 99, 50, 98, 0⟩,
   ⟨3, 98, 50, 97, 0⟩, ⟨4, 97, 50, 96, 0⟩, ⟨5, 96, 50, 95, 0⟩,
   ⟨6, 95, 50, 94, 0⟩, ⟨7, 94, 50, 93, 0⟩, ⟨8, 93, 10, 92, 0⟩,
   ⟨9, 92, 50, 91, 0⟩, ⟨10, 210, 50, 90, 20⟩, ⟨11, 89, 50, 89, 10⟩,
   ⟨12, 89, 50, 88, 0⟩, ⟨13, 88, 50, 87, 0⟩, ⟨14, 87, 50, 86, 0⟩,
   ⟨15, 86, 50, 85, 0⟩, ⟨16, 390, 10, 105, 20⟩, ⟨17, 105, 50, 105, 10⟩,
   ⟨18, 106, 50, 105, 0⟩, ⟨19, 106, 50, 105, 0⟩, ⟨20, 106, 50, 105, 0⟩,
   ⟨21, 106, 50, 105, 0⟩]

/-- A 7-element series whose position 1 is a strict minimum of its clipped
neighbourhood but lies within `order = 5` of the left boundary. -/
def l7 : List ℚ :=
  [9, 1, 9, 9, 9, 9, 9]

/-- Sixteen flat closes: every close-to-close delta in every window is 0. -/
def flat16 : List ℚ :=
  List.replicate 16 100

/-- Fifteen strictly decreasing closes: past warm-up the window holds
losses only. -/
def cls15 : List ℚ :=
  (List.range 15).map fun i => (15 : ℚ) - i

/-- One bar whose `low` cell is missing. -/
def barC6 : BarM :=
  ⟨0, 2, none, 3 / 2, 10⟩

/-!
Helper lemmas.
-/

/-- An in-range `getD` produces an element of the list. -/
theorem getD_mem_of_lt {α : Type} (l : List α) (n : ℕ) (d : α) (h : n < l.length) :
    l.getD n d ∈ l := by
  induction l generalizing n with
  | nil => simp at h
  | cons x xs ih =>
    cases n with
    | zero => simp [List.getD]
    | succ m =>
      have hm : m < xs.length := by simpa using h
      exact List.mem_cons_of_mem x (ih m hm)

/-- `getD` on a list of `none` cells is `none` at every position. -/
theorem getD_none {l : List (Option ℚ)} (hr : ∀ x ∈ l, x = none) (n : ℕ) :
    l.getD n none = none := by
  induction l generalizing n with
  | nil => rfl
  | cons x xs ih =>
    cases n with
    | zero => simpa [List.getD] using hr x (List.mem_cons_self x xs)
    | succ m => exact ih (fun y hy => hr y (List.mem_cons_of_mem x hy)) m

/-- Python-style fetch on a list of `none` cells is `none`. -/
theorem pyGetO_none {l : List (Option ℚ)} (hr : ∀ x ∈ l, x = none) (k : ℤ) :
    pyGetO l k = none := by
  unfold pyGetO
  split <;> exact getD_none hr _

/-- Python-style fetch at a non-negative position is a plain fetch. -/
theorem pyGetO_nonneg (l : List (Option ℚ)) (k : ℤ) (h : 0 ≤ k) :
    pyGetO l k = l.getD k.toNat none := by
  unfold pyGetO
  rw [if_neg (not_lt.mpr h)]

theorem ewmaFrom_length (a prev : ℚ) (l : List ℚ) :
    (ewmaFrom a prev l).length = l.length := by
  induction l generalizing prev with
  | nil => rfl
  | cons c cs ih => simp [ewmaFrom, ih]

theorem ewma_length (a : ℚ) (l : List ℚ) : (ewma a l).length = l.length := by
  cases l with
  | nil => rfl
  | cons c cs => simp [ewma, ewmaFrom_length]

theorem cumsumFrom_length (acc : ℚ) (l : List ℚ) :
    (cumsumFrom acc l).length = l.length := by
  induction l generalizing acc with
  | nil => rfl
  | cons x xs ih => simp [cumsumFrom, ih]

theorem cumsum_length (l : List ℚ) : (cumsum l).length = l.length :=
  cumsumFrom_length 0 l

theorem rsiList_length (closes : List ℚ) : (rsiList closes).length = closes.length := by
  simp [rsiList]

theorem buildFrame_dates (bars : List Bar) : (buildFrame bars).dates = bars.map Bar.date := rfl

theorem buildFrame_lows (bars : List Bar) : (buildFrame bars).lows = bars.map Bar.low := rfl

theorem buildFrame_lows_length (bars : List Bar) :
    (buildFrame bars).lows.length = bars.length := by
  simp [buildFrame]

theorem buildFrame_dates_length (bars : List Bar) :
    (buildFrame bars).dates.length = bars.length := by
  simp [buildFrame]

theorem buildFrame_ad_length (bars : List Bar) :
    (buildFrame bars).ad.length = bars.length := by
  simp [buildFrame, cumsum_length]

theorem buildFrame_rsi (bars : List Bar) :
    (buildFrame bars).rsi = rsiList (bars.map Bar.close) := rfl

/-- Membership in the pivot list unpacked. -/
theorem mem_pivotIdxs {xs : List ℚ} {ord i : ℕ} :
    i ∈ pivotIdxs xs ord ↔ i < xs.length ∧ isPivot xs ord i = true := by
  simp [pivotIdxs, List.mem_filter, List.mem_range]

/-- With a positive neighbourhood radius, position 0 is never a pivot: its
left neighbour offsets clip to position 0 itself and `np.less` is strict. -/
theorem pivot_pos {xs : List ℚ} {ord i : ℕ} (ho : 0 < ord)
    (h : i ∈ pivotIdxs xs ord) : 0 < i := by
  rcases mem_pivotIdxs.mp h with ⟨hlen, hp⟩
  rcases Nat.eq_zero_or_pos i with rfl | hpos
  · exfalso
    have h0 := List.all_eq_true.mp hp 0 (List.mem_range.mpr ho)
    rw [Bool.and_eq_true] at h0
    have h2 := h0.2
    have he : idxClip xs (((0 : ℕ) : ℤ) - (((0 : ℕ) : ℤ) + 1)) = idxClip xs ((0 : ℕ) : ℤ) := by
      unfold idxClip
      congr 1
      omega
    rw [he] at h2
    simp at h2
  · exact hpos

/-- With a positive neighbourhood radius, the last position is never a
pivot: its right neighbour offsets clip to itself. -/
theorem pivot_lt_last {xs : List ℚ} {ord i : ℕ} (ho : 0 < ord)
    (h : i ∈ pivotIdxs xs ord) : i + 1 < xs.length := by
  rcases mem_pivotIdxs.mp h with ⟨hlen, hp⟩
  by_contra hc
  have h0 := List.all_eq_true.mp hp 0 (List.mem_range.mpr ho)
  rw [Bool.and_eq_true] at h0
  have h1 := h0.1
  have he : idxClip xs ((i : ℤ) + (((0 : ℕ) : ℤ) + 1)) = idxClip xs ((i : ℕ) : ℤ) := by
    unfold idxClip
    congr 1
    omega
  rw [he] at h1
  simp at h1

/-- On a duplicate-free index, `get_loc` of the date stored at position `k`
is `k` itself. -/
theorem getLoc_getD (l : List ℤ) (k : ℕ) (hk : k < l.length) (hd : l.Nodup) :
    getLoc l (l.getD k 0) = k := by
  induction l generalizing k with
  | nil => simp at hk
  | cons x xs ih =>
    cases k with
    | zero => simp [getLoc, List.getD, List.findIdx_cons]
    | succ m =>
      have hm : m < xs.length := by simpa using hk
      have hmem : xs.getD m 0 ∈ xs := getD_mem_of_lt xs m 0 hm
      have hx : ¬x = xs.getD m 0 := by
        intro hcontra
        exact (List.nodup_cons.mp hd).1 (hcontra ▸ hmem)
      have hrec := ih m hm (List.nodup_cons.mp hd).2
      simp only [getLoc, List.getD_cons_succ, List.findIdx_cons, hx, decide_False,
        cond_false] at hrec ⊢
      omega

/-- The latest price-pivot position is itself a pivot position when at
least two pivots exist. -/
theorem p2Index_mem {f : Frame} {ord : ℕ}
    (h : 2 ≤ (pivotIdxs f.lows ord).length) :
    p2Index f ord ∈ pivotIdxs f.lows ord := by
  unfold p2Index
  exact getD_mem_of_lt _ _ _ (by omega)

/-- `oLt` succeeds only on an actual value strictly below the bound. -/
theorem oLt_eq_true {x : Option ℚ} {c : ℚ} (h : oLt x c = true) :
    ∃ r, x = some r ∧ r < c := by
  cases x with
  | none => simp [oLt] at h
  | some r => exact ⟨r, rfl, by simpa [oLt] using h⟩

/-- `oGt` succeeds only on an actual value strictly above the bound. -/
theorem oGt_eq_true {x : Option ℚ} {c : ℚ} (h : oGt x c = true) :
    ∃ r, x = some r ∧ c < r := by
  cases x with
  | none => simp [oGt] at h
  | some r => exact ⟨r, rfl, by simpa [oGt] using h⟩

/-- If every RSI cell is NaN the detector cannot confirm, hence returns
`False` on every path. -/
theorem detect_false_of_rsi_none (f : Frame) (ord : ℕ) (md : ℤ)
    (hr : ∀ x ∈ f.rsi, x = none) :
    detect_ad_bullish_divergence f ord md = false := by
  unfold detect_ad_bullish_divergence
  split_ifs <;> try rfl
  unfold rsiConfirm
  rw [pyGetO_none hr]
  simp [oLt]

/-- A series shorter than 15 bars has a NaN in every RSI window. -/
theorem rsiList_all_none {closes : List ℚ} (h : closes.length < 15) :
    ∀ x ∈ rsiList closes, x = none := by
  intro x hx
  rcases List.mem_map.mp hx with ⟨i, hi, rfl⟩
  have hilt : i < closes.length := List.mem_range.mp hi
  unfold rsiAt
  rw [if_neg]
  intro hcon
  omega

/-- Inversion of the detector's gate chain: a `True` result means every
early-return gate was passed and the RSI confirmation held. -/
theorem detect_true_elim {f : Frame} {ord : ℕ} {md : ℤ}
    (h : detect_ad_bullish_divergence f ord md = true) :
    2 ≤ (pivotIdxs f.lows ord).length ∧ 2 ≤ (pivotIdxs f.ad ord).length ∧
    f.lows.getD (p2Index f ord) 0 < f.lows.getD (p1Index f ord) 0 ∧
    2 ≤ (adCands f ord md).length ∧
    f.ad.getD (a1Index f ord md) 0 < f.ad.getD (a2Index f ord md) 0 ∧
    rsiConfirm f (confirmIndex f ord) = true := by
  unfold detect_ad_bullish_divergence at h
  split_ifs at h with g1 g2 g3 g4
  push_neg at g1 g2 g3 g4
  exact ⟨by omega, by omega, g2, by omega, g4, h⟩

/-- C2: a flat repeat never counts as divergence — if the later of the two
compared price pivots does not make a strictly lower low, or the later of
the two compared qualifying AD pivots does not make a strictly higher low,
the detector returns `False` (the comparisons of lines 74 and 88 are
strict). -/
theorem detect_tie_not_divergence (f : Frame) (_hd : f.dates.Nodup)
    (_h1 : 2 ≤ (pivotIdxs f.lows 5).length)
    (h2 : f.lows.getD (p2Index f 5) 0 ≥ f.lows.getD (p1Index f 5) 0 ∨
      2 ≤ (adCands f 5 6).length ∧
        f.ad.getD (a2Index f 5 6) 0 ≤ f.ad.getD (a1Index f 5 6) 0) :
    detect_ad_bullish_divergence f 5 6 = false := by
  cases hdet : detect_ad_bullish_divergence f 5 6 with
  | false => rfl
  | true =>
    exfalso
    rcases detect_true_elim hdet with ⟨_, _, hlt, _, hadlt, _⟩
    rcases h2 with h2 | ⟨_, h2⟩
    · exact absurd hlt (not_lt.mpr h2)
    · exact absurd hadlt (not_lt.mpr h2)

/-- Witness for C2: on `barsC2` the last two price pivots have equal lows
(and the two qualifying AD pivots have equal values), and the detector
indeed returns `False`. -/
theorem detect_tie_not_divergence_witness :
    detect_ad_bullish_divergence (buildFrame barsC2) 5 6 = false :=
  detect_tie_not_divergence (buildFrame barsC2) (by decide) (by decide)
    (Or.inl (by decide))

/-- C3: a reported divergence carries an RSI crossing at the latest price
pivot's position `idx`: the RSI cell at `idx - 1` holds a value strictly
below 40 and the cell at `idx` a value strictly above 40; moreover `idx` is
never 0 (pivots are interior under clip-mode detection, so a prior bar
always exists). -/
theorem detect_requires_rsi_crossing (bars : List Bar)
    (hd : (bars.map Bar.date).Nodup)
    (h : detect_ad_bullish_divergence (buildFrame bars) 5 6 = true) :
    (∃ r1 r2,
      (buildFrame bars).rsi.getD (confirmIndex (buildFrame bars) 5 - 1) none = some r1 ∧
        r1 < 40 ∧
      (buildFrame bars).rsi.getD (confirmIndex (buildFrame bars) 5) none = some r2 ∧
        40 < r2) ∧
    confirmIndex (buildFrame bars) 5 ≠ 0 := by
  set f := buildFrame bars with hf
  rcases detect_true_elim h with ⟨hp2, _, _, _, _, hconf⟩
  have hmem := p2Index_mem hp2
  have hpos : 0 < p2Index f 5 := pivot_pos (by norm_num) hmem
  have hlt : p2Index f 5 + 1 < f.lows.length := pivot_lt_last (by norm_num) hmem
  have hlen : f.lows.length = bars.length := buildFrame_lows_length bars
  have hdlen : f.dates.length = bars.length := buildFrame_dates_length bars
  have hnd : f.dates.Nodup := by rw [hf, buildFrame_dates]; exact hd
  have hidx : confirmIndex f 5 = p2Index f 5 := by
    unfold confirmIndex
    exact getLoc_getD f.dates (p2Index f 5) (by omega) hnd
  unfold rsiConfirm at hconf
  rw [Bool.and_eq_true] at hconf
  rcases oLt_eq_true hconf.1 with ⟨r1, he1, hr1⟩
  rcases oGt_eq_true hconf.2 with ⟨r2, he2, hr2⟩
  rw [pyGetO_nonneg _ _ (by rw [hidx]; omega)] at he1
  rw [pyGetO_nonneg _ _ (by omega)] at he2
  rw [show ((confirmIndex f 5 : ℤ) - 1).toNat = confirmIndex f 5 - 1 by
    rw [hidx]; omega] at he1
  rw [show ((confirmIndex f 5 : ℤ)).toNat = confirmIndex f 5 by omega] at he2
  exact ⟨⟨r1, r2, he1, hr1, he2, hr2⟩, by rw [hidx]; omega⟩

/-- Witness for C3: `barsC3` produces a detected divergence, and the
theorem instantiates on it. -/
theorem detect_requires_rsi_crossing_witness :
    (∃ r1 r2,
      (buildFrame barsC3).rsi.getD (confirmIndex (buildFrame barsC3) 5 - 1) none = some r1 ∧
        r1 < 40 ∧
      (buildFrame barsC3).rsi.getD (confirmIndex (buildFrame barsC3) 5) none = some r2 ∧
        40 < r2) ∧
    confirmIndex (buildFrame barsC3) 5 ≠ 0 :=
  detect_requires_rsi_crossing barsC3 (by decide) (by decide)

/-- C10: every reported pivot position is strictly interior
(`1 ≤ i ≤ n - 2`), for the price-low scan and the AD scan alike; hence on a
positive detection the confirming lookup at `idx - 1` is an ordinary
in-range fetch of a genuine prior bar — the negative-index wraparound of
`iloc` is never exercised. -/
theorem pivot_indices_interior (bars : List Bar)
    (hd : (bars.map Bar.date).Nodup) :
    (∀ i ∈ pivotIdxs (buildFrame bars).lows 5, 1 ≤ i ∧ i + 1 < bars.length) ∧
    (∀ i ∈ pivotIdxs (buildFrame bars).ad 5, 1 ≤ i ∧ i + 1 < bars.length) ∧
    (detect_ad_bullish_divergence (buildFrame bars) 5 6 = true →
      1 ≤ confirmIndex (buildFrame bars) 5 ∧
      confirmIndex (buildFrame bars) 5 + 1 < bars.length ∧
      pyGetO (buildFrame bars).rsi ((confirmIndex (buildFrame bars) 5 : ℤ) - 1) =
        (buildFrame bars).rsi.getD (confirmIndex (buildFrame bars) 5 - 1) none) := by
  refine ⟨?_, ?_, ?_⟩
  · intro i hi
    have h1 := pivot_pos (show (0 : ℕ) < 5 by norm_num) hi
    have h2 := pivot_lt_last (show (0 : ℕ) < 5 by norm_num) hi
    rw [buildFrame_lows_length] at h2
    exact ⟨h1, h2⟩
  · intro i hi
    have h1 := pivot_pos (show (0 : ℕ) < 5 by norm_num) hi
    have h2 := pivot_lt_last (show (0 : ℕ) < 5 by norm_num) hi
    rw [buildFrame_ad_length] at h2
    exact ⟨h1, h2⟩
  · intro h
    set f := buildFrame bars with hf
    rcases detect_true_elim h with ⟨hp2, _⟩
    have hmem := p2Index_mem hp2
    have hpos : 0 < p2Index f 5 := pivot_pos (by norm_num) hmem
    have hlt : p2Index f 5 + 1 < f.lows.length := pivot_lt_last (by norm_num) hmem
    have hlen : f.lows.length = bars.length := buildFrame_lows_length bars
    have hdlen : f.dates.length = bars.length := buildFrame_dates_length bars
    have hnd : f.dates.Nodup := by rw [hf, buildFrame_dates]; exact hd
    have hidx : confirmIndex f 5 = p2Index f 5 := by
      unfold confirmIndex
      exact getLoc_getD f.dates (p2Index f 5) (by omega) hnd
    refine ⟨by omega, by omega, ?_⟩
    rw [pyGetO_nonneg _ _ (by rw [hidx]; omega)]
    rw [show ((confirmIndex f 5 : ℤ) - 1).toNat = confirmIndex f 5 - 1 by
      rw [hidx]; omega]

/-- Witness for C10: on the detected divergence of `barsC3` the confirming
index is interior and the lookup does not wrap. -/
theorem pivot_indices_interior_witness :
    1 ≤ confirmIndex (buildFrame barsC3) 5 ∧
    confirmIndex (buildFrame barsC3) 5 + 1 < barsC3.length ∧
    pyGetO (buildFrame barsC3).rsi ((confirmIndex (buildFrame barsC3) 5 : ℤ) - 1) =
      (buildFrame barsC3).rsi.getD (confirmIndex (buildFrame barsC3) 5 - 1) none :=
  (pivot_indices_interior barsC3 (by decide)).2.2 (by decide)

/-- Every guarded-contribution sum is bounded by `[0, 100]` and lies in the
closed subset-sum set. -/
theorem cond_sum_bounds (a b c d : Bool) :
    0 ≤ (cond a 40 0 + cond b 30 0 + cond c 10 0 + cond d 20 0 : ℤ) ∧
    (cond a 40 0 + cond b 30 0 + cond c 10 0 + cond d 20 0 : ℤ) ≤ 100 ∧
    (cond a 40 0 + cond b 30 0 + cond c 10 0 + cond d 20 0 : ℤ) ∈ subsetSums := by
  cases a <;> cases b <;> cases c <;> cases d <;> decide

/-- C1: whenever `score` returns, the result is the sum of a subset of the
four gated contributions `{40, 30, 10, 20}`, hence an integer in `[0, 100]`
inside the closed set of the sixteen subset sums. -/
theorem score_subset_sum (bars : List Bar) (s : ℤ) (h : score bars = some s) :
    (∃ a b c d : Bool,
      s = cond a 40 0 + cond b 30 0 + cond c 10 0 + cond d 20 0) ∧
    0 ≤ s ∧ s ≤ 100 ∧ s ∈ subsetSums := by
  unfold score at h
  split_ifs at h
  have hs := (Option.some.inj h).symm
  refine ⟨⟨gateDiv bars, gateTrend bars, gateEmaOrder bars, gateRsiBand bars, hs⟩, ?_⟩
  rw [hs]
  exact cond_sum_bounds (gateDiv bars) (gateTrend bars) (gateEmaOrder bars)
    (gateRsiBand bars)

/-- Witness for C1: a one-bar series scores 0, which decomposes as the empty
subset sum. -/
theorem score_subset_sum_witness :
    (∃ a b c d : Bool,
      (0 : ℤ) = cond a 40 0 + cond b 30 0 + cond c 10 0 + cond d 20 0) ∧
    (0 : ℤ) ≤ 0 ∧ (0 : ℤ) ≤ 100 ∧ (0 : ℤ) ∈ subsetSums :=
  score_subset_sum [bar1] 0 (by decide)

/-- C7 counterexample: on the empty series the `iloc[-1]` of line 46 is
reached outside the `try` block and raises an uncaught `IndexError`
(modelled by `none`): no score is returned, although the series has fewer
than `2 * order + 1 = 11` bars. -/
theorem score_empty_none :
    score [] = none ∧ ([] : List Bar).length < 2 * 5 + 1 :=
  ⟨rfl, by decide⟩

/-- C7 as amended: on every nonempty series of fewer than `2 * order + 1`
bars, `score` raises nothing and returns the sum of the three remaining
contributions — the divergence contribution is forced to 0 (with so few
bars every RSI cell is NaN, so the detector's confirmation gate cannot
pass). -/
theorem score_short_series_degrades (bars : List Bar)
    (h1 : bars.length ≠ 0) (h2 : bars.length < 2 * 5 + 1) :
    score bars = some
      (cond (gateTrend bars) 30 0 + cond (gateEmaOrder bars) 10 0 +
        cond (gateRsiBand bars) 20 0) := by
  have hdiv : gateDiv bars = false := by
    unfold gateDiv
    apply detect_false_of_rsi_none
    rw [buildFrame_rsi]
    apply rsiList_all_none
    simp only [List.length_map]
    omega
  unfold score
  rw [if_neg h1, hdiv]
  simp

/-- Witness for C7: a five-bar rising series returns the degraded sum. -/
theorem score_short_series_degrades_witness :
    score bars5 = some
      (cond (gateTrend bars5) 30 0 + cond (gateEmaOrder bars5) 10 0 +
        cond (gateRsiBand bars5) 20 0) :=
  score_short_series_degrades bars5 (by decide) (by decide)

/-- C8: the +30 trend gate (close above fast EMA above slow EMA at the last
bar) entails the +10 EMA-order gate (fast EMA above slow EMA at the last
bar), so every score containing the +30 contribution also contains the
+10 contribution. -/
theorem trend_implies_ema_order (bars : List Bar)
    (h : gateTrend bars = true) : gateEmaOrder bars = true := by
  unfold gateTrend at h
  rw [Bool.and_eq_true] at h
  exact h.2

/-- Witness for C8: three rising closes turn the +30 gate on, and the +10
gate follows. -/
theorem trend_implies_ema_order_witness : gateEmaOrder barsUp = true :=
  trend_implies_ema_order barsUp (by decide)

/-- C9: scoring is free of cross-call state — the result of scoring a
series is the same whatever engine state previous invocations on other
series left behind, because `self.df` is overwritten from the argument
(line 42) before any stage reads it. -/
theorem score_state_independent (e : Engine) (hist : List (List Bar))
    (bars : List Bar) :
    (scoreRun (runAll e hist) bars).1 = (scoreRun initEngine bars).1 := rfl

/-- C4 counterexample: with `order = 5`, position 1 of a 7-element series is
reported as a pivot although its left neighbourhood is truncated by the
boundary (`scipy` clip mode compares against the clipped boundary element
instead of excluding the position). -/
theorem pivot_truncated_reported :
    1 ∈ pivotIdxs l7 5 ∧ ¬ 5 ≤ 1 := by decide

/-- C4 as amended: clip-mode extrema detection never reports the two
boundary positions themselves (their clipped self-comparison fails strict
`np.less`), but positions within `order` of a boundary can be reported:
their out-of-range neighbour offsets are clipped to the boundary element,
not excluded. -/
theorem pivot_clip_interior (xs : List ℚ) (ord : ℕ) (ho : 0 < ord) :
    ∀ i ∈ pivotIdxs xs ord, 0 < i ∧ i + 1 < xs.length :=
  fun _ hi => ⟨pivot_pos ho hi, pivot_lt_last ho hi⟩

/-- Witness for C4: the truncated-neighbourhood pivot of `l7` is interior. -/
theorem pivot_clip_interior_witness : 0 < 1 ∧ 1 + 1 < l7.length :=
  pivot_clip_interior l7 5 (by decide) 1 (by decide)

/-- The rolling mean of clipped-up deltas is non-negative. -/
theorem avgGain_nonneg (closes : List ℚ) (i : ℕ) : 0 ≤ avgGain closes i := by
  unfold avgGain
  apply div_nonneg _ (by norm_num)
  apply List.sum_nonneg
  intro x hx
  rcases List.mem_map.mp hx with ⟨j, _, rfl⟩
  exact le_max_right _ 0

/-- The rolling mean of clipped-down deltas is non-negative. -/
theorem avgLoss_nonneg (closes : List ℚ) (i : ℕ) : 0 ≤ avgLoss closes i := by
  unfold avgLoss
  apply div_nonneg _ (by norm_num)
  apply List.sum_nonneg
  intro x hx
  rcases List.mem_map.mp hx with ⟨j, _, rfl⟩
  exact le_max_right _ 0

/-- C5 counterexample: sixteen flat closes put bar 15 past the warm-up
window, yet its RSI cell is NaN (`0/0` from a window with neither gains
nor losses) — not a value in `[0, 100]` and not the 0 the claim requires
for a gain-free window. -/
theorem rsi_flat_window_nan :
    14 ≤ 15 ∧ 15 < flat16.length ∧ rsiAt flat16 15 = none := by decide

/-- C5 as amended: past warm-up the RSI cell obeys exactly the float
fallout of `avg_gain / avg_loss`: with at least one loss in the window it
is a value in `[0, 100]`, equal to 0 when the window has no gains; with a
gain but no loss it is exactly 100 (`+inf` ratio); with neither (a flat
window) it is NaN, not 0 — there is no explicit substitution in the code. -/
theorem rsi_past_warmup_cases (closes : List ℚ) (i : ℕ)
    (h1 : 14 ≤ i) (h2 : i < closes.length) :
    (avgLoss closes i ≠ 0 →
      ∃ r, rsiAt closes i = some r ∧ 0 ≤ r ∧ r ≤ 100 ∧
        (avgGain closes i = 0 → r = 0)) ∧
    (avgLoss closes i = 0 → avgGain closes i ≠ 0 → rsiAt closes i = some 100) ∧
    (avgLoss closes i = 0 → avgGain closes i = 0 → rsiAt closes i = none) := by
  unfold rsiAt
  rw [if_pos ⟨h1, h2⟩]
  refine ⟨?_, ?_, ?_⟩
  · intro hl
    rw [if_neg hl]
    have hg0 : 0 ≤ avgGain closes i := avgGain_nonneg closes i
    have hl0 : 0 < avgLoss closes i :=
      lt_of_le_of_ne (avgLoss_nonneg closes i) (Ne.symm hl)
    have hq0 : 0 ≤ avgGain closes i / avgLoss closes i := div_nonneg hg0 hl0.le
    refine ⟨_, rfl, ?_, ?_, ?_⟩
    · have hle : 100 / (1 + avgGain closes i / avgLoss closes i) ≤ 100 :=
        div_le_self (by norm_num) (by linarith)
      linarith
    · have hpos : 0 < 100 / (1 + avgGain closes i / avgLoss closes i) :=
        div_pos (by norm_num) (by linarith)
      linarith
    · intro hg
      rw [hg]
      norm_num
  · intro hl hg
    rw [if_pos hl, if_neg hg]
  · intro hl hg
    rw [if_pos hl, if_pos hg]

/-- Witness for C5: fifteen strictly decreasing closes at bar 14 — a
loss-only window, whose RSI is 0. -/
theorem rsi_past_warmup_cases_witness :
    (avgLoss cls15 14 ≠ 0 →
      ∃ r, rsiAt cls15 14 = some r ∧ 0 ≤ r ∧ r ≤ 100 ∧
        (avgGain cls15 14 = 0 → r = 0)) ∧
    (avgLoss cls15 14 = 0 → avgGain cls15 14 ≠ 0 → rsiAt cls15 14 = some 100) ∧
    (avgLoss cls15 14 = 0 → avgGain cls15 14 = 0 → rsiAt cls15 14 = none) :=
  rsi_past_warmup_cases cls15 14 (by decide) (by decide)

/-- C6 counterexample: a series containing a bar whose `low` is missing is
scored without any error: the NaN money-flow multiplier is filled with 0
(line 34) and the call returns the ordinary score 0 — no DataQuality
failure naming the offending bar exists anywhere in the code. -/
theorem missing_low_scores_normally :
    barC6.low = none ∧ scoreM [barC6] = some 0 := by decide

/-- C6 as amended: the engine never fails on a bar with a missing/NaN low —
the indicator block raises nothing (the NaN is filled into the AD line and
NaN comparisons simply never qualify as pivots), and the call returns a
normal bounded score computed over the remaining data. -/
theorem score_missing_low_no_error (bars : List BarM)
    (h0 : bars.length ≠ 0) (_hm : ∃ b ∈ bars, b.low = none) :
    ∃ s, scoreM bars = some s ∧ 0 ≤ s ∧ s ≤ 100 := by
  unfold scoreM
  rw [if_neg h0]
  refine ⟨_, rfl, ?_, ?_⟩ <;>
    (cases gateDivM bars <;> cases gateTrendM bars <;> cases gateEmaOrderM bars <;>
      cases gateRsiBandM bars <;> decide)

/-- Witness for C6: the singleton series with the missing-low bar. -/
theorem score_missing_low_no_error_witness :
    ∃ s, scoreM [barC6] = some s ∧ 0 ≤ s ∧ s ≤ 100 :=
  score_missing_low_no_error [barC6] (by decide) ⟨barC6, by decide, rfl⟩
